import Mathlib

/-!
Shallow embedding of the Issue-Tracking backend
(Express + PostgreSQL, modules `auth`, `issues`, middleware `auth.js`).

The relational store is modelled as explicit Lean state (`DB`), rows as
structures, SQL timestamps as `Nat`, nullable columns as `Option`.
Each definition mirrors one function of the source; stateful database
operations are explicit state-passing functions `DB → (result × DB)`.
-/

namespace IssueTracker

/-- A row of the `users` table (schema.sql). -/
structure User where
  user_id : Nat
  name : String
  email : String
  password_hash : String
  created_at : Nat
  updated_at : Nat
  is_enabled : Bool
deriving DecidableEq, Repr

/-- A row of the `issues` table (schema.sql).  The enum columns are stored
as strings exactly as the JS code manipulates them; the store-level enum
constraint is expressed as a hypothesis where a claim needs it. -/
structure Issue where
  issue_id : Nat
  title : String
  description : Option String
  status : String
  priority : String
  severity : String
  created_by : Nat
  assigned_to : Option Nat
  created_at : Nat
  updated_at : Nat
  resolved_at : Option Nat
deriving DecidableEq, Repr

/-- The persistent state: both tables plus the two SERIAL sequences. -/
structure DB where
  users : List User := []
  issues : List Issue := []
  nextUserId : Nat := 1
  nextIssueId : Nat := 1
deriving DecidableEq, Repr

/-- Valid status values (`issueConstants.js` / `issue_status` enum). -/
def validStatuses : List String := ["Open", "In Progress", "Resolved", "Closed"]

/-! ### Executable string primitives

JS `String.prototype.split`, `toUpperCase`/`toLowerCase` and string
comparison, embedded as structural functions on the character list. -/

/-- Split a character list at every occurrence of `sep` (accumulator holds
the current chunk reversed); `split` never drops empty chunks. -/
def splitCharsAux (sep : Char) : List Char → List Char → List (List Char)
  | [], acc => [acc.reverse]
  | c :: cs, acc =>
    if c == sep then acc.reverse :: splitCharsAux sep cs []
    else splitCharsAux sep cs (c :: acc)

/-- JS `s.split(sep)` for a one-character separator. -/
def jsSplit (sep : Char) (s : String) : List String :=
  (splitCharsAux sep s.data []).map (fun cs => String.mk cs)

/-- JS `s.toUpperCase()` (ASCII; all strings involved are ASCII). -/
def jsToUpper (s : String) : String := String.mk (s.data.map Char.toUpper)

/-- JS `s.toLowerCase()` (ASCII). -/
def jsToLower (s : String) : String := String.mk (s.data.map Char.toLower)

/-- Lexicographic comparison of character lists by code point. -/
def charListLe : List Char → List Char → Bool
  | [], _ => true
  | _ :: _, [] => false
  | a :: as, b :: bs =>
    if a == b then charListLe as bs else decide (a.toNat < b.toNat)

/-- Text-column comparison used by `ORDER BY` on a string column. -/
def stringLe (a b : String) : Bool := charListLe a.data b.data

/-! ## JWT middleware (`middleware/auth.js`) -/

/-- The token claims attached to `req.user` on successful verification. -/
structure Claims where
  userId : Nat
  email : String
  name : String
deriving DecidableEq, Repr

/-- Outcome of `jwt.verify`: success with decoded claims, or one of the two
library error kinds the middleware distinguishes (`JsonWebTokenError`,
`TokenExpiredError`). -/
inductive VerifyResult where
  | ok (claims : Claims)
  | invalidSignature
  | expired
deriving DecidableEq, Repr

/-- Result of running an Express middleware: either the chain is aborted
with an error (no later handler runs), or the request proceeds carrying
`req.user` (possibly `null`). -/
inductive MWResult where
  | abort (message : String)
  | next (user : Option Claims)
deriving DecidableEq, Repr

/-- `authenticate` middleware (`middleware/auth.js`, lines 19-57).
`authHeader = none` models a missing `Authorization` header; an empty
header string is falsy in JS and hits the same branch. -/
def authenticate (verify : String → VerifyResult) (authHeader : Option String) : MWResult :=
  match authHeader with
  | none => .abort "No authorization token provided"
  | some h =>
    if h = "" then .abort "No authorization token provided"
    else
      match jsSplit ' ' h with
      | [p0, token] =>
        if p0 = "Bearer" then
          match verify token with
          | .ok c => .next (some c)
          | .invalidSignature => .abort "Invalid token"
          | .expired => .abort "Token has expired"
        else .abort "Invalid authorization header format. Use: Bearer <token>"
      | _ => .abort "Invalid authorization header format. Use: Bearer <token>"

/-- `optionalAuth` middleware (`middleware/auth.js`, lines 64-95): the
whole body runs in a `try` whose `catch` sets `req.user = null` and calls
`next()`, so a failing `jwt.verify` still lets the request proceed. -/
def optionalAuth (verify : String → VerifyResult) (authHeader : Option String) : MWResult :=
  match authHeader with
  | none => .next none
  | some h =>
    if h = "" then .next none
    else
      match jsSplit ' ' h with
      | [p0, token] =>
        if p0 = "Bearer" then
          match verify token with
          | .ok c => .next (some c)
          | _ => .next none
        else .next none
      | _ => .next none

/-- `router.use(authenticate)` (`issueRoutes.js`): a protected route runs
its handler only if `authenticate` let the request through. -/
def handleProtected {α : Type} (verify : String → VerifyResult)
    (authHeader : Option String) (handler : Option Claims → α) : Except String α :=
  match authenticate verify authHeader with
  | .abort m => .error m
  | .next u => .ok (handler u)

/-! ## AuthModel (`modules/auth/authModel.js`) -/

namespace AuthModel

/-- `AuthModel.findByEmail` (lines 36-53): first user row with the given
email among enabled users (`WHERE email = $1 AND is_enabled = true LIMIT 1`). -/
def findByEmail (users : List User) (email : String) : Option User :=
  users.find? (fun u => u.email == email && u.is_enabled)

/-- `AuthModel.emailExists` (lines 82-91): `SELECT COUNT(*) FROM users
WHERE email = $1` — no `is_enabled` condition — then `count > 0`. -/
def emailExists (users : List User) (email : String) : Bool :=
  decide (0 < users.countP (fun u => u.email == email))

/-- `AuthModel.createUser` (lines 15-29). -/
def createUser (now : Nat) (db : DB) (name email passwordHash : String) : User × DB :=
  let u : User :=
    { user_id := db.nextUserId, name := name, email := email,
      password_hash := passwordHash, created_at := now, updated_at := now,
      is_enabled := true }
  (u, { db with users := db.users ++ [u], nextUserId := db.nextUserId + 1 })

end AuthModel

/-- Error taxonomy of the API layer (`errorHandler` middleware). -/
inductive AppError where
  | conflict
  | unauthorized
deriving DecidableEq, Repr

/-- Modelled from the spec: the register controller itself
(`modules/auth/authController.js`) is not among the provided sources; per
the spec, `register(name, email, password) → User` "fails with
`ConflictError` if email already exists; stores only the irreversible hash
of the password".  The duplicate check is the source's
`AuthModel.emailExists`; on success the user is stored via
`AuthModel.createUser`. -/
def register (now : Nat) (db : DB) (name email passwordHash : String) :
    Except AppError (User × DB) :=
  if AuthModel.emailExists db.users email then .error .conflict
  else .ok (AuthModel.createUser now db name email passwordHash)

/-! ## IssueModel (`modules/issues/issueModel.js`) -/

namespace IssueModel

/-- Case-insensitive substring test: `hay ILIKE '%pat%'`.  `listContains`
is plain substring search on the lower-cased character lists. -/
def listContains (hay pat : List Char) : Bool :=
  match hay with
  | [] => pat == []
  | _ :: t => pat.isPrefixOf hay || listContains t pat

/-- `col ILIKE $k` with parameter `'%' + search + '%'`. -/
def containsCI (hay pat : String) : Bool :=
  listContains (jsToLower hay).data (jsToLower pat).data

/-- The options object taken by `IssueModel.getAllIssues` with the
source's destructuring defaults (lines 536-546). -/
structure ListOptions where
  page : Nat := 1
  limit : Nat := 10
  status : Option String := none
  priority : Option String := none
  severity : Option String := none
  search : Option String := none
  sortBy : String := "created_at"
  sortOrder : String := "DESC"
  createdBy : Option Nat := none
deriving DecidableEq, Repr

/-- The conjunction of the dynamically assembled WHERE conditions
(lines 552-583).  `some ""` (and `some 0` for `createdBy`) is falsy in
JS, so such a filter is skipped just like an absent one.  The free-text
search is `title ILIKE '%s%' OR description ILIKE '%s%'`; `ILIKE` on a
NULL description yields NULL, i.e. the disjunct is not satisfied. -/
def matchesFilter (o : ListOptions) (i : Issue) : Bool :=
  (match o.status with | none => true | some s => s == "" || i.status == s) &&
  (match o.priority with | none => true | some s => s == "" || i.priority == s) &&
  (match o.severity with | none => true | some s => s == "" || i.severity == s) &&
  (match o.createdBy with | none => true | some c => c == 0 || i.created_by == c) &&
  (match o.search with
   | none => true
   | some s => s == "" ||
       (containsCI i.title s ||
        (match i.description with | some d => containsCI d s | none => false)))

/-- The sort-column allow-list (line 586). -/
def validSortFields : List String :=
  ["created_at", "updated_at", "title", "priority", "status", "severity"]

/-- Declaration-order rank of the `issue_status` enum; Postgres orders an
enum column by declaration order. -/
def statusRank : String → Nat
  | "Open" => 0
  | "In Progress" => 1
  | "Resolved" => 2
  | "Closed" => 3
  | _ => 4

/-- Declaration-order rank of the `issue_priority` enum. -/
def priorityRank : String → Nat
  | "Low" => 0
  | "Medium" => 1
  | "High" => 2
  | "Critical" => 3
  | _ => 4

/-- Declaration-order rank of the `issue_severity` enum. -/
def severityRank : String → Nat
  | "Minor" => 0
  | "Major" => 1
  | "Critical" => 2
  | _ => 3

/-- `ORDER BY i.<field>` comparison between two issue rows. -/
def issueLe (field : String) (a b : Issue) : Bool :=
  if field == "created_at" then decide (a.created_at ≤ b.created_at)
  else if field == "updated_at" then decide (a.updated_at ≤ b.updated_at)
  else if field == "title" then stringLe a.title b.title
  else if field == "priority" then decide (priorityRank a.priority ≤ priorityRank b.priority)
  else if field == "status" then decide (statusRank a.status ≤ statusRank b.status)
  else if field == "severity" then decide (severityRank a.severity ≤ severityRank b.severity)
  else true

/-- Insert into a sorted list, keeping `le`-order. -/
def insertLe {α : Type} (le : α → α → Bool) (x : α) : List α → List α
  | [] => [x]
  | y :: ys => if le x y then x :: y :: ys else y :: insertLe le x ys

/-- Insertion sort with a boolean comparator (models `ORDER BY`). -/
def sortList {α : Type} (le : α → α → Bool) (l : List α) : List α :=
  l.foldr (insertLe le) []

/-- An issue row joined with creator and assignee display columns, as
produced by the `LEFT JOIN users creator / assignee` select list. -/
structure JoinedIssue where
  issue : Issue
  creator_name : Option String
  creator_email : Option String
  assignee_name : Option String
  assignee_email : Option String
deriving DecidableEq, Repr

/-- The `LEFT JOIN` of one issue row with the `users` table. -/
def joinRow (db : DB) (i : Issue) : JoinedIssue :=
  let creator := db.users.find? (fun u => u.user_id == i.created_by)
  let assignee : Option User := match i.assigned_to with
    | some a => db.users.find? (fun u => u.user_id == a)
    | none => none
  { issue := i,
    creator_name := creator.map User.name,
    creator_email := creator.map User.email,
    assignee_name := assignee.map User.name,
    assignee_email := assignee.map User.email }

/-- The record returned by `IssueModel.getAllIssues` (lines 627-633). -/
structure ListResult where
  issues : List JoinedIssue
  total : Nat
  totalPages : Nat
  currentPage : Nat
  perPage : Nat
deriving DecidableEq, Repr

/-- `IssueModel.getAllIssues` (lines 535-634): separate count query over
the same WHERE clause, then the joined, ordered, `LIMIT/OFFSET` page.
`Math.ceil(total / limit)` is ceiling division `(total + limit - 1) / limit`
for a positive limit. -/
def getAllIssues (db : DB) (o : ListOptions) : ListResult :=
  let offset := (o.page - 1) * o.limit
  let safeSortBy := if validSortFields.contains o.sortBy then o.sortBy else "created_at"
  let safeSortOrder := if jsToUpper o.sortOrder == "ASC" then "ASC" else "DESC"
  let matching := db.issues.filter (matchesFilter o)
  let total := matching.length
  let le := if safeSortOrder == "ASC" then issueLe safeSortBy
            else fun a b => issueLe safeSortBy b a
  let sorted := sortList le matching
  let pageRows := (sorted.drop offset).take o.limit
  { issues := pageRows.map (joinRow db),
    total := total,
    totalPages := (total + o.limit - 1) / o.limit,
    currentPage := o.page,
    perPage := o.limit }

/-- `IssueModel.getIssueById` (lines 641-668): `WHERE i.issue_id = $1
LIMIT 1`, joined with creator/assignee, `null` when no row matches. -/
def getIssueById (db : DB) (id : Nat) : Option JoinedIssue :=
  (db.issues.find? (fun i => i.issue_id == id)).map (joinRow db)

/-- The argument object of `IssueModel.createIssue` with the source's
destructuring defaults (lines 676-684). -/
structure NewIssueData where
  title : String
  description : Option String := none
  status : Option String := none
  priority : Option String := none
  severity : Option String := none
  createdBy : Nat
  assignedTo : Option Nat := none
deriving DecidableEq, Repr

/-- `IssueModel.createIssue` (lines 675-704): INSERT with defaults,
returning `{ insertId }`. -/
def createIssue (now : Nat) (db : DB) (d : NewIssueData) : Nat × DB :=
  let row : Issue :=
    { issue_id := db.nextIssueId,
      title := d.title,
      description := d.description,
      status := d.status.getD "Open",
      priority := d.priority.getD "Medium",
      severity := d.severity.getD "Minor",
      created_by := d.createdBy,
      assigned_to := d.assignedTo,
      created_at := now, updated_at := now, resolved_at := none }
  (db.nextIssueId, { db with issues := db.issues ++ [row], nextIssueId := db.nextIssueId + 1 })

/-- The partial-update payload of `IssueModel.updateIssue`: `none` models
a JS `undefined` (field not supplied); the inner `Option` of
`description`/`assignedTo` models SQL NULL. -/
structure UpdateFields where
  title : Option String := none
  description : Option (Option String) := none
  status : Option String := none
  priority : Option String := none
  severity : Option String := none
  assignedTo : Option (Option Nat) := none
deriving DecidableEq, Repr

/-- True when no updatable field is supplied, i.e. `updateFields` would
contain only `updated_at` (line 760). -/
def noFields (u : UpdateFields) : Bool :=
  u.title.isNone && u.description.isNone && u.status.isNone &&
  u.priority.isNone && u.severity.isNone && u.assignedTo.isNone

/-- The effect of the assembled `SET` list of `IssueModel.updateIssue`
on one row (lines 727-758): each supplied field is overwritten; a
supplied status of Resolved/Closed additionally stamps `resolved_at`
(and nothing clears it); `updated_at` is always refreshed. -/
def applyUpdate (now : Nat) (u : UpdateFields) (i : Issue) : Issue :=
  let i := match u.title with | some t => { i with title := t } | none => i
  let i := match u.description with | some d => { i with description := d } | none => i
  let i := match u.status with
    | some s =>
      let i := { i with status := s }
      if s == "Resolved" || s == "Closed" then { i with resolved_at := some now } else i
    | none => i
  let i := match u.priority with | some p => { i with priority := p } | none => i
  let i := match u.severity with | some sv => { i with severity := sv } | none => i
  let i := match u.assignedTo with | some a => { i with assigned_to := a } | none => i
  { i with updated_at := now }

/-- Result object of the mutating model operations (`RETURNING` row count). -/
structure UpdateResult where
  affectedRows : Nat
deriving DecidableEq, Repr

/-- `IssueModel.updateIssue` (lines 712-775): early return with zero
affected rows and no query when only `updated_at` would be set; otherwise
one UPDATE over the rows matching the id. -/
def updateIssue (now : Nat) (db : DB) (id : Nat) (u : UpdateFields) : UpdateResult × DB :=
  if noFields u then ({ affectedRows := 0 }, db)
  else
    let issues := db.issues.map (fun i => if i.issue_id == id then applyUpdate now u i else i)
    ({ affectedRows := db.issues.countP (fun i => i.issue_id == id) },
     { db with issues := issues })

/-- `IssueModel.updateStatus` (lines 783-804): dedicated status write;
Resolved/Closed stamps `resolved_at = NOW()`, anything else clears it. -/
def updateStatus (now : Nat) (db : DB) (id : Nat) (status : String) : UpdateResult × DB :=
  let f : Issue → Issue := fun i =>
    if status == "Resolved" || status == "Closed" then
      { i with status := status, resolved_at := some now, updated_at := now }
    else
      { i with status := status, resolved_at := none, updated_at := now }
  let issues := db.issues.map (fun i => if i.issue_id == id then f i else i)
  ({ affectedRows := db.issues.countP (fun i => i.issue_id == id) },
   { db with issues := issues })

/-- `IssueModel.deleteIssue` (lines 811-815). -/
def deleteIssue (db : DB) (id : Nat) : UpdateResult × DB :=
  ({ affectedRows := db.issues.countP (fun i => i.issue_id == id) },
   { db with issues := db.issues.filter (fun i => i.issue_id != id) })

/-- The counts object built by `IssueModel.getStatusCounts`
(lines 833-839): the four known keys start at zero; a key outside the
enum (impossible under the store's enum constraint) would be added as a
fresh property, modelled by `extra`. -/
structure StatusCounts where
  openCount : Nat := 0
  inProgressCount : Nat := 0
  resolvedCount : Nat := 0
  closedCount : Nat := 0
  total : Nat := 0
  extra : List (String × Nat) := []
deriving DecidableEq, Repr

/-- The body of the `results.forEach` of `getStatusCounts`
(lines 841-844): `counts[row.status] = count; counts.total += count`. -/
def applyRow (c : StatusCounts) (row : String × Nat) : StatusCounts :=
  let c1 :=
    if row.1 = "Open" then { c with openCount := row.2 }
    else if row.1 = "In Progress" then { c with inProgressCount := row.2 }
    else if row.1 = "Resolved" then { c with resolvedCount := row.2 }
    else if row.1 = "Closed" then { c with closedCount := row.2 }
    else { c with extra := c.extra ++ [row] }
  { c1 with total := c1.total + row.2 }

/-- Result set of `SELECT status, COUNT(*) FROM issues GROUP BY status`:
one row per distinct status value present. -/
def groupByStatus (issues : List Issue) : List (String × Nat) :=
  ((issues.map Issue.status).dedup).map
    (fun s => (s, issues.countP (fun i => i.status == s)))

/-- `IssueModel.getStatusCounts` (lines 821-847). -/
def getStatusCounts (issues : List Issue) : StatusCounts :=
  (groupByStatus issues).foldl applyRow {}

end IssueModel

/-! ## IssueController (`modules/issues/issueController.js`) -/

namespace IssueController

/-- Creator/assignee sub-object of a formatted issue payload. -/
structure UserRef where
  id : Nat
  name : Option String
  email : Option String
deriving DecidableEq, Repr

/-- The API payload built by `formatIssueResponse` (lines 495-517). -/
structure IssueResponse where
  id : Nat
  title : String
  description : Option String
  status : String
  priority : String
  severity : String
  createdBy : UserRef
  assignedTo : Option UserRef
  createdAt : Nat
  updatedAt : Nat
  resolvedAt : Option Nat
deriving DecidableEq, Repr

/-- `formatIssueResponse` (lines 495-517). -/
def formatIssueResponse (j : IssueModel.JoinedIssue) : IssueResponse :=
  { id := j.issue.issue_id,
    title := j.issue.title,
    description := j.issue.description,
    status := j.issue.status,
    priority := j.issue.priority,
    severity := j.issue.severity,
    createdBy := { id := j.issue.created_by, name := j.creator_name, email := j.creator_email },
    assignedTo := match j.issue.assigned_to with
      | some a => some { id := a, name := j.assignee_name, email := j.assignee_email }
      | none => none,
    createdAt := j.issue.created_at,
    updatedAt := j.issue.updated_at,
    resolvedAt := j.issue.resolved_at }

/-- The HTTP response envelopes the issue controllers produce. -/
inductive Resp where
  | success (body : Option IssueResponse) (message : String)
  | createdOk (body : Option IssueResponse) (message : String)
  | notFound (message : String)
  | serverError
deriving DecidableEq, Repr

/-- The request body of `POST /api/issues` as sent by a client.  The
controller destructures only title/description/status/priority/severity/
assignedTo (line 332); a client-supplied `createdBy` or `created_by`
property is never read. -/
structure CreateBody where
  title : String
  description : Option String := none
  status : Option String := none
  priority : Option String := none
  severity : Option String := none
  assignedTo : Option Nat := none
  createdBy : Option Nat := none
  created_by : Option Nat := none
deriving DecidableEq, Repr

/-- `IssueController.createIssue` (lines 330-357): `createdBy` is taken
from `req.user.userId`, the row is inserted, then re-fetched by the
returned `insertId` and formatted. -/
def createIssue (now : Nat) (user : Claims) (body : CreateBody) (db : DB) : Resp × DB :=
  let createdBy := user.userId
  let result := IssueModel.createIssue now db
    { title := body.title, description := body.description, status := body.status,
      priority := body.priority, severity := body.severity,
      createdBy := createdBy, assignedTo := body.assignedTo }
  match IssueModel.getIssueById result.2 result.1 with
  | some j => (.createdOk (some (formatIssueResponse j)) "Issue created successfully", result.2)
  | none => (.serverError, result.2)

/-- `IssueController.updateIssue` (lines 363-396): re-fetch-then-404,
apply the partial update, re-fetch and return the committed record. -/
def updateIssue (now : Nat) (id : Nat) (u : IssueModel.UpdateFields) (db : DB) : Resp × DB :=
  match IssueModel.getIssueById db id with
  | none => (.notFound "Issue not found", db)
  | some _ =>
    let result := IssueModel.updateIssue now db id u
    match IssueModel.getIssueById result.2 id with
    | some j => (.success (some (formatIssueResponse j)) "Issue updated successfully", result.2)
    | none => (.serverError, result.2)

/-- `IssueController.updateStatus` (lines 402-428). -/
def updateStatus (now : Nat) (id : Nat) (status : String) (db : DB) : Resp × DB :=
  match IssueModel.getIssueById db id with
  | none => (.notFound "Issue not found", db)
  | some _ =>
    let result := IssueModel.updateStatus now db id status
    match IssueModel.getIssueById result.2 id with
    | some j =>
      (.success (some (formatIssueResponse j))
        ("Issue status updated to \"" ++ status ++ "\""), result.2)
    | none => (.serverError, result.2)

/-- `IssueController.deleteIssue` (lines 434-452). -/
def deleteIssue (id : Nat) (db : DB) : Resp × DB :=
  match IssueModel.getIssueById db id with
  | none => (.notFound "Issue not found", db)
  | some _ =>
    let result := IssueModel.deleteIssue db id
    (.success none "Issue deleted successfully", result.2)

end IssueController

/-! ## Theorems -/

/-- Helper: splitting a non-empty literal-shaped header can be decided;
the empty string splits to `[""]`, never `["Bearer", t]`. -/
theorem jsSplit_empty_ne (t : String) : jsSplit ' ' "" ≠ ["Bearer", t] := by
  intro hc
  have h2 : jsSplit ' ' "" = [""] := by decide
  rw [h2] at hc
  exact absurd (List.cons.inj hc).1 (by decide)

/-- C3: two create-issue requests by the same authenticated caller that
differ only in a client-supplied `createdBy`/`created_by` body field
produce identical results, and the row actually inserted carries the
authenticated caller's `userId` as its creator. -/
theorem createIssue_creator_from_caller (now : Nat) (user : Claims)
    (body : IssueController.CreateBody) (cb1 cb2 : Option Nat) (db : DB) :
    IssueController.createIssue now user
        { body with createdBy := cb1, created_by := cb2 } db
      = IssueController.createIssue now user body db
    ∧ ((IssueController.createIssue now user body db).2.issues.getLast?).map
        Issue.created_by = some user.userId := by
  refine ⟨rfl, ?_⟩
  simp only [IssueController.createIssue, IssueModel.createIssue]
  split <;> simp

/-- C7: on a protected route, each of the four authentication failure
cases (missing header, malformed header, invalid signature, expired
token) aborts with its own distinct message before any handler runs, and
a valid token attaches the token's `{userId, email, name}` claims. -/
theorem authenticate_failure_cases :
    (∀ verify, authenticate verify none = .abort "No authorization token provided")
    ∧ (∀ verify h, h ≠ "" →
        ((jsSplit ' ' h).length ≠ 2 ∨ (jsSplit ' ' h).headD "" ≠ "Bearer") →
        authenticate verify (some h)
          = .abort "Invalid authorization header format. Use: Bearer <token>")
    ∧ (∀ verify h t, jsSplit ' ' h = ["Bearer", t] → verify t = .invalidSignature →
        authenticate verify (some h) = .abort "Invalid token")
    ∧ (∀ verify h t, jsSplit ' ' h = ["Bearer", t] → verify t = .expired →
        authenticate verify (some h) = .abort "Token has expired")
    ∧ (∀ verify h t c, jsSplit ' ' h = ["Bearer", t] → verify t = .ok c →
        authenticate verify (some h) = .next (some c))
    ∧ (∀ (α : Type) (verify) (hd) (msg) (handler : Option Claims → α),
        authenticate verify hd = .abort msg →
        handleProtected verify hd handler = .error msg)
    ∧ (["No authorization token provided",
        "Invalid authorization header format. Use: Bearer <token>",
        "Invalid token", "Token has expired"] : List String).Nodup := by
  refine ⟨fun _ => rfl, ?_, ?_, ?_, ?_, ?_, by decide⟩
  · intro verify h hne hform
    simp only [authenticate, if_neg hne]
    rcases hs : jsSplit ' ' h with _ | ⟨p, _ | ⟨q, _ | r⟩⟩
    · rfl
    · rfl
    · rw [hs] at hform
      have hp : p ≠ "Bearer" := by
        rcases hform with hl | hh
        · exact absurd rfl hl
        · simpa using hh
      simp [hp]
    · rfl
  · intro verify h t hs hv
    have hne : h ≠ "" := fun he => jsSplit_empty_ne t (he ▸ hs)
    simp [authenticate, if_neg hne, hs, hv]
  · intro verify h t hs hv
    have hne : h ≠ "" := fun he => jsSplit_empty_ne t (he ▸ hs)
    simp [authenticate, if_neg hne, hs, hv]
  · intro verify h t c hs hv
    have hne : h ≠ "" := fun he => jsSplit_empty_ne t (he ▸ hs)
    simp [authenticate, if_neg hne, hs, hv]
  · intro α verify hd msg handler hab
    simp [handleProtected, hab]

/-- C7 witness: concrete instances of all failure cases and the success
case of `authenticate`. -/
theorem authenticate_failure_cases_witness :
    authenticate (fun _ => .invalidSignature) none
        = .abort "No authorization token provided"
    ∧ authenticate (fun _ => .ok ⟨7, "e", "n"⟩) (some "Token abc def")
        = .abort "Invalid authorization header format. Use: Bearer <token>"
    ∧ authenticate (fun _ => .invalidSignature) (some "Bearer abc")
        = .abort "Invalid token"
    ∧ authenticate (fun _ => .expired) (some "Bearer abc")
        = .abort "Token has expired"
    ∧ authenticate (fun _ => .ok ⟨7, "e", "n"⟩) (some "Bearer abc")
        = .next (some ⟨7, "e", "n"⟩)
    ∧ handleProtected (fun _ => .expired) (some "Bearer abc")
        (fun _ => (0 : Nat)) = .error "Token has expired" := by
  have h1 := authenticate_failure_cases.1 (fun _ => VerifyResult.invalidSignature)
  have h2 := authenticate_failure_cases.2.1 (fun _ => VerifyResult.ok ⟨7, "e", "n"⟩)
    "Token abc def" (by decide) (by decide)
  have h3 := authenticate_failure_cases.2.2.1 (fun _ => VerifyResult.invalidSignature)
    "Bearer abc" "abc" (by decide) rfl
  have h4 := authenticate_failure_cases.2.2.2.1 (fun _ => VerifyResult.expired)
    "Bearer abc" "abc" (by decide) rfl
  have h5 := authenticate_failure_cases.2.2.2.2.1 (fun _ => VerifyResult.ok ⟨7, "e", "n"⟩)
    "Bearer abc" "abc" ⟨7, "e", "n"⟩ (by decide) rfl
  have h6 := authenticate_failure_cases.2.2.2.2.2.1 Nat (fun _ => VerifyResult.expired)
    (some "Bearer abc") "Token has expired" (fun _ => (0 : Nat)) h4
  exact ⟨h1, h2, h3, h4, h5, h6⟩

/-- Helper: `optionalAuth` always produces a `next` outcome. -/
theorem optionalAuth_isNext (verify : String → VerifyResult) (hd : Option String) :
    ∃ u, optionalAuth verify hd = MWResult.next u := by
  cases hd with
  | none => exact ⟨none, rfl⟩
  | some h =>
    simp only [optionalAuth]
    split
    · exact ⟨none, rfl⟩
    · split
      · split
        · split
          · exact ⟨_, rfl⟩
          · exact ⟨none, rfl⟩
        · exact ⟨none, rfl⟩
      · exact ⟨none, rfl⟩

/-- C10: `optionalAuth` never aborts a request: missing, empty, malformed
headers and invalid or expired tokens all proceed with a `null` request
identity; only a well-formed valid token attaches the claims. -/
theorem optionalAuth_never_rejects :
    (∀ verify hd msg, optionalAuth verify hd ≠ MWResult.abort msg)
    ∧ (∀ verify, optionalAuth verify none = .next none)
    ∧ (∀ verify h, h ≠ "" →
        ((jsSplit ' ' h).length ≠ 2 ∨ (jsSplit ' ' h).headD "" ≠ "Bearer") →
        optionalAuth verify (some h) = .next none)
    ∧ (∀ verify h t, jsSplit ' ' h = ["Bearer", t] →
        (verify t = .invalidSignature ∨ verify t = .expired) →
        optionalAuth verify (some h) = .next none)
    ∧ (∀ verify h t c, jsSplit ' ' h = ["Bearer", t] → verify t = .ok c →
        optionalAuth verify (some h) = .next (some c)) := by
  refine ⟨?_, fun _ => rfl, ?_, ?_, ?_⟩
  · intro verify hd msg
    obtain ⟨u, hu⟩ := optionalAuth_isNext verify hd
    rw [hu]
    simp
  · intro verify h hne hform
    simp only [optionalAuth, if_neg hne]
    rcases hs : jsSplit ' ' h with _ | ⟨p, _ | ⟨q, _ | r⟩⟩
    · rfl
    · rfl
    · rw [hs] at hform
      have hp : p ≠ "Bearer" := by
        rcases hform with hl | hh
        · exact absurd rfl hl
        · simpa using hh
      simp [hp]
    · rfl
  · intro verify h t hs hv
    have hne : h ≠ "" := fun he => jsSplit_empty_ne t (he ▸ hs)
    rcases hv with hv | hv <;> simp [optionalAuth, if_neg hne, hs, hv]
  · intro verify h t c hs hv
    have hne : h ≠ "" := fun he => jsSplit_empty_ne t (he ▸ hs)
    simp [optionalAuth, if_neg hne, hs, hv]

/-- C10 witness: concrete instances of every `optionalAuth` case. -/
theorem optionalAuth_never_rejects_witness :
    optionalAuth (fun _ => .expired) none = .next none
    ∧ optionalAuth (fun _ => .ok ⟨7, "e", "n"⟩) (some "nonsense")
        = .next none
    ∧ optionalAuth (fun _ => .expired) (some "Bearer abc") = .next none
    ∧ optionalAuth (fun _ => .ok ⟨7, "e", "n"⟩) (some "Bearer abc")
        = .next (some ⟨7, "e", "n"⟩)
    ∧ optionalAuth (fun _ => .invalidSignature) (some "Bearer abc")
        ≠ MWResult.abort "Invalid token" := by
  have h1 := optionalAuth_never_rejects.2.1 (fun _ => VerifyResult.expired)
  have h2 := optionalAuth_never_rejects.2.2.1 (fun _ => VerifyResult.ok ⟨7, "e", "n"⟩)
    "nonsense" (by decide) (by decide)
  have h3 := optionalAuth_never_rejects.2.2.2.1 (fun _ => VerifyResult.expired)
    "Bearer abc" "abc" (by decide) (Or.inr rfl)
  have h4 := optionalAuth_never_rejects.2.2.2.2 (fun _ => VerifyResult.ok ⟨7, "e", "n"⟩)
    "Bearer abc" "abc" ⟨7, "e", "n"⟩ (by decide) rfl
  have h5 := optionalAuth_never_rejects.1 (fun _ => VerifyResult.invalidSignature)
    (some "Bearer abc") "Invalid token"
  exact ⟨h1, h2, h3, h4, h5⟩

/-- C8: the email-existence check behind registration counts every user
row, enabled or not, so registration conflicts on emails of disabled
users too — while the login lookup `findByEmail` only ever returns an
enabled user. -/
theorem emailExists_includes_disabled (now : Nat) (db : DB) (name email pw : String) :
    (AuthModel.emailExists db.users email = true ↔ ∃ u ∈ db.users, u.email = email)
    ∧ (register now db name email pw = .error .conflict ↔ ∃ u ∈ db.users, u.email = email)
    ∧ (∀ u, AuthModel.findByEmail db.users email = some u →
        u.is_enabled = true ∧ u.email = email) := by
  have hiff : AuthModel.emailExists db.users email = true ↔
      ∃ u ∈ db.users, u.email = email := by
    simp [AuthModel.emailExists, List.countP_pos_iff]
  refine ⟨hiff, ?_, ?_⟩
  · rw [← hiff]
    unfold register
    by_cases hE : AuthModel.emailExists db.users email = true
    · simp [hE]
    · simp [hE]
  · intro u hu
    have hp := List.find?_some hu
    simp at hp
    exact ⟨hp.2, hp.1⟩

/-- A database with a single, disabled user, for the C8 witness. -/
def dbC8 : DB :=
  { users := [{ user_id := 1, name := "A", email := "a@b.c", password_hash := "h",
                created_at := 0, updated_at := 0, is_enabled := false }],
    issues := [], nextUserId := 2, nextIssueId := 1 }

/-- A database with a single enabled user, for the C8 witness. -/
def dbC8b : DB :=
  { users := [{ user_id := 2, name := "B", email := "b@b.c", password_hash := "h",
                created_at := 0, updated_at := 0, is_enabled := true }],
    issues := [], nextUserId := 3, nextIssueId := 1 }

/-- Fallback user row used with `headD` in the C8 witness. -/
def defaultUser : User :=
  { user_id := 0, name := "", email := "", password_hash := "",
    created_at := 0, updated_at := 0, is_enabled := false }

/-- C8 witness: a disabled user's email still counts as existing and makes
registration conflict; the login lookup only returns enabled users. -/
theorem emailExists_includes_disabled_witness :
    AuthModel.emailExists dbC8.users "a@b.c" = true
    ∧ register 3 dbC8 "X" "a@b.c" "hh" = .error .conflict
    ∧ (dbC8b.users.headD defaultUser).is_enabled = true := by
  refine ⟨(emailExists_includes_disabled 3 dbC8 "X" "a@b.c" "hh").1.mpr ?_,
          (emailExists_includes_disabled 3 dbC8 "X" "a@b.c" "hh").2.1.mpr ?_,
          ((emailExists_includes_disabled 3 dbC8b "X" "b@b.c" "hh").2.2 _ ?_).1⟩
  · exact ⟨dbC8.users.headD defaultUser, by decide, by decide⟩
  · exact ⟨dbC8.users.headD defaultUser, by decide, by decide⟩
  · decide

/-! ### C9 machinery: the `GROUP BY status` fold -/

/-- Projection of the counts object at one of the four known keys. -/
def getField : String → IssueModel.StatusCounts → Nat
  | "Open", c => c.openCount
  | "In Progress", c => c.inProgressCount
  | "Resolved", c => c.resolvedCount
  | "Closed", c => c.closedCount
  | _, _ => 0

theorem applyRow_total (c : IssueModel.StatusCounts) (row : String × Nat) :
    (IssueModel.applyRow c row).total = c.total + row.2 := by
  simp only [IssueModel.applyRow]
  split_ifs <;> rfl

theorem applyRow_getField_eq (c : IssueModel.StatusCounts) (row : String × Nat)
    (h : row.1 ∈ validStatuses) : getField row.1 (IssueModel.applyRow c row) = row.2 := by
  rcases row with ⟨s, n⟩
  simp only [validStatuses, List.mem_cons, List.mem_singleton] at h
  rcases h with h | h | h | (h | hc)
  · subst h; rfl
  · subst h; rfl
  · subst h; rfl
  · subst h; rfl
  · cases hc

theorem applyRow_getField_ne (c : IssueModel.StatusCounts) (row : String × Nat)
    (k : String) (hk : k ∈ validStatuses) (h : row.1 ≠ k) :
    getField k (IssueModel.applyRow c row) = getField k c := by
  rcases row with ⟨s, n⟩
  simp only [validStatuses, List.mem_cons, List.mem_singleton] at hk
  simp only [IssueModel.applyRow]
  rcases hk with hk | hk | hk | (hk | hc)
  all_goals first
  | cases hc
  | (subst hk; split_ifs <;> simp_all [getField])

theorem foldl_applyRow_not_mem (rows : List (String × Nat))
    (c : IssueModel.StatusCounts) (k : String) (hk : k ∈ validStatuses)
    (h : k ∉ rows.map Prod.fst) :
    getField k (rows.foldl IssueModel.applyRow c) = getField k c := by
  induction rows generalizing c with
  | nil => rfl
  | cons r rs ih =>
    simp only [List.map_cons, List.mem_cons, not_or] at h
    rw [List.foldl_cons, ih _ h.2]
    exact applyRow_getField_ne c r k hk (fun hr => h.1 hr.symm)

theorem foldl_applyRow_mem (rows : List (String × Nat))
    (c : IssueModel.StatusCounts) (k : String) (n : Nat)
    (hk : k ∈ validStatuses) (hnd : (rows.map Prod.fst).Nodup)
    (hm : (k, n) ∈ rows) :
    getField k (rows.foldl IssueModel.applyRow c) = n := by
  induction rows generalizing c with
  | nil => cases hm
  | cons r rs ih =>
    rcases List.mem_cons.mp hm with hm | hm
    · subst hm
      simp only [List.map_cons, List.nodup_cons] at hnd
      rw [List.foldl_cons, foldl_applyRow_not_mem rs _ k hk hnd.1]
      exact applyRow_getField_eq c (k, n) hk
    · simp only [List.map_cons, List.nodup_cons] at hnd
      rw [List.foldl_cons]
      exact ih _ hnd.2 hm

theorem foldl_applyRow_total (rows : List (String × Nat))
    (c : IssueModel.StatusCounts) :
    (rows.foldl IssueModel.applyRow c).total = c.total + (rows.map Prod.snd).sum := by
  induction rows generalizing c with
  | nil => simp
  | cons r rs ih =>
    rw [List.foldl_cons, ih, applyRow_total]
    simp [Nat.add_assoc]

theorem four_counts_eq_length (issues : List Issue)
    (h : ∀ i ∈ issues, i.status ∈ validStatuses) :
    issues.countP (fun i => i.status == "Open")
      + issues.countP (fun i => i.status == "In Progress")
      + issues.countP (fun i => i.status == "Resolved")
      + issues.countP (fun i => i.status == "Closed") = issues.length := by
  induction issues with
  | nil => rfl
  | cons i is ih =>
    have hi := h i (List.mem_cons_self i is)
    have hrest : ∀ j ∈ is, j.status ∈ validStatuses :=
      fun j hj => h j (List.mem_cons_of_mem i hj)
    have ihr := ih hrest
    simp only [validStatuses, List.mem_cons, List.mem_singleton] at hi
    rcases hi with hi | hi | hi | (hi | hc)
    · simp [List.countP_cons, hi]; omega
    · simp [List.countP_cons, hi]; omega
    · simp [List.countP_cons, hi]; omega
    · simp [List.countP_cons, hi]; omega
    · cases hc

/-- Helper: the keys of the grouped rows are exactly the deduplicated
status values. -/
theorem groupByStatus_keys (issues : List Issue) :
    (IssueModel.groupByStatus issues).map Prod.fst
      = (issues.map Issue.status).dedup := by
  simp only [IssueModel.groupByStatus, List.map_map]
  rw [show (Prod.fst ∘ fun s => (s, issues.countP (fun i => i.status == s)))
      = id from rfl]
  exact List.map_id _

/-- Helper: counting issues by status equals counting the status column. -/
theorem countP_status_eq_count (issues : List Issue) (s : String) :
    (issues.map Issue.status).count s
      = issues.countP (fun i => i.status == s) := by
  show (issues.map Issue.status).countP (fun x => x == s) = _
  rw [List.countP_map]
  rfl

/-- Helper: each known status field of `getStatusCounts` is the number of
issues carrying that status. -/
theorem getStatusCounts_field (issues : List Issue) (k : String)
    (hk : k ∈ validStatuses) :
    getField k (IssueModel.getStatusCounts issues)
      = issues.countP (fun i => i.status == k) := by
  unfold IssueModel.getStatusCounts
  have hnd : ((IssueModel.groupByStatus issues).map Prod.fst).Nodup := by
    rw [groupByStatus_keys]
    exact (issues.map Issue.status).nodup_dedup
  by_cases hmem : k ∈ (issues.map Issue.status).dedup
  · exact foldl_applyRow_mem _ _ k _ hk hnd
      (List.mem_map_of_mem (fun s => (s, issues.countP (fun i => i.status == s))) hmem)
  · rw [foldl_applyRow_not_mem _ _ k hk (by rw [groupByStatus_keys]; exact hmem)]
    have hz : issues.countP (fun i => i.status == k) = 0 := by
      rw [List.countP_eq_zero]
      intro i hi
      simp only [beq_iff_eq]
      intro he
      exact hmem (List.mem_dedup.mpr (he ▸ List.mem_map_of_mem Issue.status hi))
    rw [hz]
    simp only [validStatuses, List.mem_cons, List.mem_singleton] at hk
    rcases hk with hk | hk | hk | (hk | hc)
    · subst hk; rfl
    · subst hk; rfl
    · subst hk; rfl
    · subst hk; rfl
    · cases hc

/-- Helper: the grand total accumulated over the grouped rows is the
number of issue rows. -/
theorem getStatusCounts_total (issues : List Issue) :
    (IssueModel.getStatusCounts issues).total = issues.length := by
  unfold IssueModel.getStatusCounts
  rw [foldl_applyRow_total]
  have hfun : (fun s => issues.countP (fun i => i.status == s))
      = fun s => (issues.map Issue.status).count s :=
    funext fun s => (countP_status_eq_count issues s).symm
  have hmapsnd : (IssueModel.groupByStatus issues).map Prod.snd
      = (issues.map Issue.status).dedup.map
          (fun s => (issues.map Issue.status).count s) := by
    simp only [IssueModel.groupByStatus, List.map_map]
    rw [show (Prod.snd ∘ fun s => (s, issues.countP (fun i => i.status == s)))
        = fun s => issues.countP (fun i => i.status == s) from rfl, hfun]
  rw [hmapsnd, List.sum_map_count_dedup_eq_length, List.length_map]
  simp

/-- C9: `getStatusCounts` reports, for each of the four known statuses,
the exact number of issues in that status (zero when the status is
absent), never adds an unknown key when all rows respect the status enum,
and its `total` equals the sum of the four per-status counts. -/
theorem getStatusCounts_complete (issues : List Issue)
    (h : ∀ i ∈ issues, i.status ∈ validStatuses) :
    (IssueModel.getStatusCounts issues).openCount
        = issues.countP (fun i => i.status == "Open")
    ∧ (IssueModel.getStatusCounts issues).inProgressCount
        = issues.countP (fun i => i.status == "In Progress")
    ∧ (IssueModel.getStatusCounts issues).resolvedCount
        = issues.countP (fun i => i.status == "Resolved")
    ∧ (IssueModel.getStatusCounts issues).closedCount
        = issues.countP (fun i => i.status == "Closed")
    ∧ (IssueModel.getStatusCounts issues).total
        = (IssueModel.getStatusCounts issues).openCount
          + (IssueModel.getStatusCounts issues).inProgressCount
          + (IssueModel.getStatusCounts issues).resolvedCount
          + (IssueModel.getStatusCounts issues).closedCount := by
  have h1 : (IssueModel.getStatusCounts issues).openCount
      = issues.countP (fun i => i.status == "Open") :=
    getStatusCounts_field issues "Open" (by decide)
  have h2 : (IssueModel.getStatusCounts issues).inProgressCount
      = issues.countP (fun i => i.status == "In Progress") :=
    getStatusCounts_field issues "In Progress" (by decide)
  have h3 : (IssueModel.getStatusCounts issues).resolvedCount
      = issues.countP (fun i => i.status == "Resolved") :=
    getStatusCounts_field issues "Resolved" (by decide)
  have h4 : (IssueModel.getStatusCounts issues).closedCount
      = issues.countP (fun i => i.status == "Closed") :=
    getStatusCounts_field issues "Closed" (by decide)
  refine ⟨h1, h2, h3, h4, ?_⟩
  rw [getStatusCounts_total, h1, h2, h3, h4]
  exact (four_counts_eq_length issues h).symm

/-- Compact issue-row constructor for concrete witnesses. -/
def mkIssue (id : Nat) (title status priority severity : String)
    (creator : Nat) : Issue :=
  { issue_id := id, title := title, description := none, status := status,
    priority := priority, severity := severity, created_by := creator,
    assigned_to := none, created_at := id, updated_at := id,
    resolved_at := none }

/-- Issue list for the C9 witness: one Open issue and two Closed ones,
no Resolved or In Progress issue. -/
def issuesC9 : List Issue :=
  [mkIssue 1 "a" "Open" "Low" "Minor" 1,
   mkIssue 2 "b" "Closed" "Low" "Minor" 1,
   mkIssue 3 "c" "Closed" "Low" "Minor" 1]

/-- C9 witness: on a concrete store the four keys are present with the
right counts — zero for the empty statuses — and the total is their sum. -/
theorem getStatusCounts_complete_witness :
    (IssueModel.getStatusCounts issuesC9).openCount = 1
    ∧ (IssueModel.getStatusCounts issuesC9).inProgressCount = 0
    ∧ (IssueModel.getStatusCounts issuesC9).resolvedCount = 0
    ∧ (IssueModel.getStatusCounts issuesC9).closedCount = 2
    ∧ (IssueModel.getStatusCounts issuesC9).total = 3 := by
  have h := getStatusCounts_complete issuesC9 (by decide)
  refine ⟨?_, ?_, ?_, ?_, ?_⟩
  · rw [h.1]; decide
  · rw [h.2.1]; decide
  · rw [h.2.2.1]; decide
  · rw [h.2.2.2.1]; decide
  · rw [h.2.2.2.2, h.1, h.2.1, h.2.2.1, h.2.2.2.1]; decide

/-- C2: the `total` of a list query counts exactly the rows satisfying
the filter predicate, unchanged under any page/limit; `totalPages` is
ceiling division of `total` by `limit` (characterised by its Galois
property `totalPages ≤ n ↔ total ≤ limit * n`). -/
theorem getAllIssues_total_pages (db : DB) (o : IssueModel.ListOptions)
    (hl : 0 < o.limit) :
    ((IssueModel.getAllIssues db o).total
        = db.issues.countP (IssueModel.matchesFilter o))
    ∧ (∀ p l, (IssueModel.getAllIssues db { o with page := p, limit := l }).total
        = (IssueModel.getAllIssues db o).total)
    ∧ ((IssueModel.getAllIssues db o).totalPages
        = (IssueModel.getAllIssues db o).total ⌈/⌉ o.limit)
    ∧ (∀ n, (IssueModel.getAllIssues db o).totalPages ≤ n
        ↔ (IssueModel.getAllIssues db o).total ≤ o.limit * n) := by
  refine ⟨?_, fun p l => rfl, rfl, ?_⟩
  · simp [IssueModel.getAllIssues, List.countP_eq_length_filter]
  · intro n
    have h3 : (IssueModel.getAllIssues db o).totalPages
        = (IssueModel.getAllIssues db o).total ⌈/⌉ o.limit := rfl
    rw [h3, ceilDiv_le_iff_le_smul hl, smul_eq_mul]

/-- Issue store for the list-query witnesses: two Open issues and one
Closed one. -/
def dbC2 : DB :=
  { users := [], issues :=
      [mkIssue 1 "Alpha" "Open" "Low" "Minor" 1,
       mkIssue 2 "Beta" "Closed" "Low" "Minor" 1,
       mkIssue 3 "Gamma" "Open" "High" "Major" 2],
    nextUserId := 1, nextIssueId := 4 }

/-- A list query for the C2 witness: filter on Open, second page of one. -/
def optC2 : IssueModel.ListOptions :=
  { page := 2, limit := 1, status := some "Open" }

/-- C2 witness: on a concrete store, `total` is 2 on every page/limit and
`totalPages` is pinned to 2 by the ceiling characterisation. -/
theorem getAllIssues_total_pages_witness :
    (IssueModel.getAllIssues dbC2 optC2).total = 2
    ∧ (IssueModel.getAllIssues dbC2 { optC2 with page := 5, limit := 7 }).total = 2
    ∧ (IssueModel.getAllIssues dbC2 optC2).totalPages ≤ 2
    ∧ ¬ (IssueModel.getAllIssues dbC2 optC2).totalPages ≤ 1 := by
  have h := getAllIssues_total_pages dbC2 optC2 (by decide)
  refine ⟨?_, ?_, ?_, ?_⟩
  · rw [h.1]; decide
  · rw [h.2.1 5 7, h.1]; decide
  · rw [h.2.2.2 2, h.1]; decide
  · rw [h.2.2.2 1, h.1]; decide

/-- Helper: the filter predicate ignores the sort column. -/
theorem matchesFilter_sortBy (o : IssueModel.ListOptions) (sb : String) :
    IssueModel.matchesFilter { o with sortBy := sb }
      = IssueModel.matchesFilter o := rfl

/-- Helper: the filter predicate ignores the sort direction. -/
theorem matchesFilter_sortOrder (o : IssueModel.ListOptions) (so : String) :
    IssueModel.matchesFilter { o with sortOrder := so }
      = IssueModel.matchesFilter o := rfl

/-- C6: an unknown `sortBy` silently falls back to `created_at`; the
direction is ascending exactly when the requested `sortOrder` upper-cases
to `ASC` (i.e. is `asc` case-insensitively), otherwise descending. -/
theorem getAllIssues_sort_fallback (db : DB) (o : IssueModel.ListOptions) :
    (o.sortBy ∉ IssueModel.validSortFields →
      IssueModel.getAllIssues db o
        = IssueModel.getAllIssues db { o with sortBy := "created_at" })
    ∧ (jsToUpper o.sortOrder = "ASC" →
      IssueModel.getAllIssues db o
        = IssueModel.getAllIssues db { o with sortOrder := "asc" })
    ∧ (jsToUpper o.sortOrder ≠ "ASC" →
      IssueModel.getAllIssues db o
        = IssueModel.getAllIssues db { o with sortOrder := "desc" }) := by
  refine ⟨?_, ?_, ?_⟩
  · intro h
    have hin : "created_at" ∈ IssueModel.validSortFields := by decide
    simp [IssueModel.getAllIssues, h, hin, matchesFilter_sortBy]
  · intro h
    have h2 : jsToUpper "asc" = "ASC" := by decide
    simp [IssueModel.getAllIssues, h, h2, matchesFilter_sortOrder]
  · intro h
    have h2 : jsToUpper "desc" ≠ "ASC" := by decide
    simp [IssueModel.getAllIssues, h, h2, matchesFilter_sortOrder]

/-- List query with an unknown sort column and mixed-case ascending
order, for the C6 witness. -/
def optC6a : IssueModel.ListOptions :=
  { sortBy := "password_hash", sortOrder := "AsC" }

/-- List query with a non-ascending sort order, for the C6 witness. -/
def optC6b : IssueModel.ListOptions :=
  { sortBy := "title", sortOrder := "Down" }

/-- C6 witness: concrete queries showing the `created_at` fallback, the
case-insensitive ascending match, and the descending default. -/
theorem getAllIssues_sort_fallback_witness :
    IssueModel.getAllIssues dbC2 optC6a
      = IssueModel.getAllIssues dbC2 { optC6a with sortBy := "created_at" }
    ∧ IssueModel.getAllIssues dbC2 optC6a
      = IssueModel.getAllIssues dbC2 { optC6a with sortOrder := "asc" }
    ∧ IssueModel.getAllIssues dbC2 optC6b
      = IssueModel.getAllIssues dbC2 { optC6b with sortOrder := "desc" } :=
  ⟨(getAllIssues_sort_fallback dbC2 optC6a).1 (by decide),
   (getAllIssues_sort_fallback dbC2 optC6a).2.1 (by decide),
   (getAllIssues_sort_fallback dbC2 optC6b).2.2 (by decide)⟩

/-- Helper: complete field characterisation of the single-row effect of
`IssueModel.updateIssue`'s SET list. -/
theorem applyUpdate_fields (now : Nat) (u : IssueModel.UpdateFields) (i : Issue) :
    (IssueModel.applyUpdate now u i).issue_id = i.issue_id
    ∧ (IssueModel.applyUpdate now u i).created_by = i.created_by
    ∧ (IssueModel.applyUpdate now u i).created_at = i.created_at
    ∧ (IssueModel.applyUpdate now u i).title
        = (match u.title with | some t => t | none => i.title)
    ∧ (IssueModel.applyUpdate now u i).description
        = (match u.description with | some d => d | none => i.description)
    ∧ (IssueModel.applyUpdate now u i).status
        = (match u.status with | some st => st | none => i.status)
    ∧ (IssueModel.applyUpdate now u i).priority
        = (match u.priority with | some p => p | none => i.priority)
    ∧ (IssueModel.applyUpdate now u i).severity
        = (match u.severity with | some sv => sv | none => i.severity)
    ∧ (IssueModel.applyUpdate now u i).assigned_to
        = (match u.assignedTo with | some a => a | none => i.assigned_to)
    ∧ (IssueModel.applyUpdate now u i).resolved_at
        = (match u.status with
           | some st => if st == "Resolved" || st == "Closed"
                        then some now else i.resolved_at
           | none => i.resolved_at)
    ∧ (IssueModel.applyUpdate now u i).updated_at = now := by
  rcases u with ⟨t, d, st, p, sv, a⟩
  rcases st with _ | st
  · rcases t with _ | t <;> rcases d with _ | d <;> rcases p with _ | p <;>
      rcases sv with _ | sv <;> rcases a with _ | a <;>
      simp [IssueModel.applyUpdate]
  · by_cases hrc : (st == "Resolved" || st == "Closed") = true <;>
      rcases t with _ | t <;> rcases d with _ | d <;> rcases p with _ | p <;>
      rcases sv with _ | sv <;> rcases a with _ | a <;>
      simp [IssueModel.applyUpdate, hrc]

/-- A default issue row used with `headD` in witnesses. -/
def defaultIssue : Issue := mkIssue 0 "" "" "" "" 0

/-- Store for the C1 counterexample and witness: a single Resolved issue
whose `resolved_at` is set. -/
def dbC1 : DB :=
  { users := [],
    issues := [{ mkIssue 1 "Bug" "Resolved" "Low" "Minor" 1 with
                   resolved_at := some 5 }],
    nextUserId := 1, nextIssueId := 2 }

/-- C1 counterexample: a full update (`updateIssue`) that moves the only
issue's status from Resolved to Open leaves `resolved_at` non-null — the
full-update write does not clear `resolved_at` when status transitions
out of Resolved/Closed, contradicting the claim for `updateIssue`. -/
theorem updateIssue_keeps_resolved_at :
    ∃ i ∈ ((IssueModel.updateIssue 10 dbC1 1
        { status := some "Open" }).2).issues,
      i.issue_id = 1 ∧ i.status = "Open" ∧ i.resolved_at = some 5 := by
  decide

/-- C1 (amended): the status-only path `updateStatus` does maintain the
biconditional — after its write `resolved_at` is non-null iff the new
status is Resolved or Closed — while the full-update path `updateIssue`
stamps `resolved_at` when the supplied status is Resolved/Closed but
leaves it unchanged (rather than clearing it) when the supplied status
is any other value. -/
theorem resolved_at_amended :
    (∀ now db id st i2,
        i2 ∈ ((IssueModel.updateStatus now db id st).2).issues →
        i2.issue_id = id →
        (i2.resolved_at ≠ none ↔ (st = "Resolved" ∨ st = "Closed")))
    ∧ (∀ now db id u st, u.status = some st →
        (st = "Resolved" ∨ st = "Closed") →
        ∀ i2, i2 ∈ ((IssueModel.updateIssue now db id u).2).issues →
        i2.issue_id = id → i2.resolved_at = some now)
    ∧ (∀ now u st i, u.status = some st →
        ¬ (st = "Resolved" ∨ st = "Closed") →
        (IssueModel.applyUpdate now u i).resolved_at = i.resolved_at)
    ∧ (∀ now db id u, IssueModel.noFields u = false →
        ((IssueModel.updateIssue now db id u).2).issues
          = db.issues.map (fun i =>
              if i.issue_id == id then IssueModel.applyUpdate now u i else i)) := by
  refine ⟨?_, ?_, ?_, ?_⟩
  · intro now db id st i2 hmem hid
    simp only [IssueModel.updateStatus] at hmem
    rcases List.mem_map.mp hmem with ⟨i, hi, heq⟩
    by_cases hb : (i.issue_id == id) = true
    · rw [if_pos hb] at heq
      by_cases hrc : (st == "Resolved" || st == "Closed") = true
      · rw [if_pos hrc] at heq
        subst heq
        simp only [ne_eq, reduceCtorEq, not_false_eq_true, true_iff]
        have := hrc
        simp only [Bool.or_eq_true, beq_iff_eq] at this
        exact this
      · rw [if_neg hrc] at heq
        subst heq
        simp only [ne_eq, not_true_eq_false, false_iff]
        simp only [Bool.or_eq_true, beq_iff_eq] at hrc
        push_neg at hrc
        simp [hrc.1, hrc.2]
    · rw [if_neg hb] at heq
      subst heq
      simp only [beq_iff_eq] at hb
      exact absurd hid hb
  · intro now db id u st hst hrc i2 hmem hid
    have hnf : IssueModel.noFields u = false := by
      simp [IssueModel.noFields, hst]
    simp only [IssueModel.updateIssue, hnf, Bool.false_eq_true, if_false] at hmem
    rcases List.mem_map.mp hmem with ⟨i, hi, heq⟩
    by_cases hb : (i.issue_id == id) = true
    · rw [if_pos hb] at heq
      subst heq
      rw [(applyUpdate_fields now u i).2.2.2.2.2.2.2.2.2.1, hst]
      have hb2 : (st == "Resolved" || st == "Closed") = true := by
        rcases hrc with h | h <;> simp [h]
      simp [hb2]
    · rw [if_neg hb] at heq
      subst heq
      simp only [beq_iff_eq] at hb
      exact absurd hid hb
  · intro now u st i hst hrc
    rw [(applyUpdate_fields now u i).2.2.2.2.2.2.2.2.2.1, hst]
    have hb2 : (st == "Resolved" || st == "Closed") = false := by
      push_neg at hrc
      simp [hrc.1, hrc.2]
    simp [hb2]
  · intro now db id u hnf
    simp [IssueModel.updateIssue, hnf]

/-- C1 witness: concrete runs of both paths — `updateStatus` to Closed
stamps `resolved_at`, `updateStatus` to Open clears it, `updateIssue` to
Closed stamps it, and `updateIssue`'s row effect with status Open leaves
`resolved_at` untouched. -/
theorem resolved_at_amended_witness :
    ((IssueModel.updateStatus 10 dbC1 1 "Closed").2.issues.headD
        defaultIssue).resolved_at ≠ none
    ∧ ¬ (((IssueModel.updateStatus 10 dbC1 1 "Open").2.issues.headD
        defaultIssue).resolved_at ≠ none)
    ∧ ((IssueModel.updateIssue 10 dbC1 1
        { status := some "Closed" }).2.issues.headD
          defaultIssue).resolved_at = some 10
    ∧ (IssueModel.applyUpdate 10 { status := some "Open" }
        (dbC1.issues.headD defaultIssue)).resolved_at
      = (dbC1.issues.headD defaultIssue).resolved_at := by
  refine ⟨?_, ?_, ?_, ?_⟩
  · exact (resolved_at_amended.1 10 dbC1 1 "Closed" _ (by decide)
      (by decide)).mpr (Or.inr rfl)
  · intro hne
    exact absurd ((resolved_at_amended.1 10 dbC1 1 "Open" _ (by decide)
      (by decide)).mp hne) (by decide)
  · exact resolved_at_amended.2.1 10 dbC1 1 { status := some "Closed" }
      "Closed" rfl (Or.inr rfl) _ (by decide) (by decide)
  · exact resolved_at_amended.2.2.1 10 { status := some "Open" } "Open"
      (dbC1.issues.headD defaultIssue) rfl (by decide)

/-- C4: partial-update frame: with no supplied field the call reports
zero affected rows and leaves the store untouched; otherwise the write
touches only the rows matching the id, on which exactly the supplied
fields are overwritten — `updated_at` always refreshed, `resolved_at`
changed only through a supplied Resolved/Closed status — and every other
column, row and table is unchanged. -/
theorem updateIssue_frame (now : Nat) (db : DB) (id : Nat)
    (u : IssueModel.UpdateFields) :
    (IssueModel.noFields u = true →
      IssueModel.updateIssue now db id u = ({ affectedRows := 0 }, db))
    ∧ (IssueModel.updateIssue now db id u).2.users = db.users
    ∧ (IssueModel.updateIssue now db id u).2.nextIssueId = db.nextIssueId
    ∧ (IssueModel.updateIssue now db id u).2.nextUserId = db.nextUserId
    ∧ (IssueModel.updateIssue now db id u).2.issues.length = db.issues.length
    ∧ (∀ (n : Nat) (old : Issue), db.issues[n]? = some old →
        old.issue_id ≠ id →
        (IssueModel.updateIssue now db id u).2.issues[n]? = some old)
    ∧ (∀ (n : Nat) (old : Issue), db.issues[n]? = some old →
        old.issue_id = id →
        IssueModel.noFields u = false →
        (IssueModel.updateIssue now db id u).2.issues[n]?
          = some (IssueModel.applyUpdate now u old))
    ∧ (∀ i, (IssueModel.applyUpdate now u i).issue_id = i.issue_id
        ∧ (IssueModel.applyUpdate now u i).created_by = i.created_by
        ∧ (IssueModel.applyUpdate now u i).created_at = i.created_at
        ∧ (IssueModel.applyUpdate now u i).title
            = (match u.title with | some t => t | none => i.title)
        ∧ (IssueModel.applyUpdate now u i).description
            = (match u.description with | some d => d | none => i.description)
        ∧ (IssueModel.applyUpdate now u i).status
            = (match u.status with | some st => st | none => i.status)
        ∧ (IssueModel.applyUpdate now u i).priority
            = (match u.priority with | some p => p | none => i.priority)
        ∧ (IssueModel.applyUpdate now u i).severity
            = (match u.severity with | some sv => sv | none => i.severity)
        ∧ (IssueModel.applyUpdate now u i).assigned_to
            = (match u.assignedTo with | some a => a | none => i.assigned_to)
        ∧ (IssueModel.applyUpdate now u i).resolved_at
            = (match u.status with
               | some st => if st == "Resolved" || st == "Closed"
                            then some now else i.resolved_at
               | none => i.resolved_at)
        ∧ (IssueModel.applyUpdate now u i).updated_at = now) := by
  refine ⟨?_, ?_, ?_, ?_, ?_, ?_, ?_, fun i => applyUpdate_fields now u i⟩
  · intro h
    simp [IssueModel.updateIssue, h]
  · by_cases hnf : IssueModel.noFields u = true <;>
      simp [IssueModel.updateIssue, hnf]
  · by_cases hnf : IssueModel.noFields u = true <;>
      simp [IssueModel.updateIssue, hnf]
  · by_cases hnf : IssueModel.noFields u = true <;>
      simp [IssueModel.updateIssue, hnf]
  · by_cases hnf : IssueModel.noFields u = true <;>
      simp [IssueModel.updateIssue, hnf]
  · intro n old hsome hne
    by_cases hnf : IssueModel.noFields u = true
    · simp [IssueModel.updateIssue, hnf, hsome]
    · have hb : (old.issue_id == id) = false := by simp [hne]
      simp [IssueModel.updateIssue, hnf, List.getElem?_map, hsome, hb, hne]
  · intro n old hsome hid hnf
    have hb : (old.issue_id == id) = true := by simp [hid]
    simp [IssueModel.updateIssue, hnf, List.getElem?_map, hsome, hb, hid]

/-- C4 witness: on a concrete store, the empty update is a pure no-op
with zero affected rows; a title-only update leaves a non-matching row
untouched and rewrites only the matching row, whose status stays put. -/
theorem updateIssue_frame_witness :
    IssueModel.updateIssue 10 dbC1 1 {} = ({ affectedRows := 0 }, dbC1)
    ∧ (IssueModel.updateIssue 10 dbC1 99 { title := some "T2" }).2.issues[0]?
        = some (dbC1.issues.headD defaultIssue)
    ∧ (IssueModel.updateIssue 10 dbC1 1 { title := some "T2" }).2.issues[0]?
        = some (IssueModel.applyUpdate 10 { title := some "T2" }
            (dbC1.issues.headD defaultIssue))
    ∧ (IssueModel.applyUpdate 10 { title := some "T2" }
        (dbC1.issues.headD defaultIssue)).status
      = (dbC1.issues.headD defaultIssue).status := by
  refine ⟨(updateIssue_frame 10 dbC1 1 {}).1 (by decide), ?_, ?_, ?_⟩
  · exact (updateIssue_frame 10 dbC1 99 { title := some "T2" }).2.2.2.2.2.1 0
      (dbC1.issues.headD defaultIssue) (by decide) (by decide)
  · exact (updateIssue_frame 10 dbC1 1 { title := some "T2" }).2.2.2.2.2.2.1 0
      (dbC1.issues.headD defaultIssue) (by decide) (by decide) (by decide)
  · exact ((updateIssue_frame 10 dbC1 1 { title := some "T2" }).2.2.2.2.2.2.2
      (dbC1.issues.headD defaultIssue)).2.2.2.2.2.1

/-- Helper: `WHERE issue_id = $1 LIMIT 1` over an id-preserving rewrite
of the rows finds the rewritten image of the originally found row. -/
theorem find?_map_preserve (l : List Issue) (id : Nat) (g : Issue → Issue)
    (hg : ∀ i, (g i).issue_id = i.issue_id) :
    (l.map g).find? (fun i => i.issue_id == id)
      = (l.find? (fun i => i.issue_id == id)).map g := by
  induction l with
  | nil => rfl
  | cons i is ih =>
    rw [List.map_cons, List.find?_cons, List.find?_cons]
    by_cases hb : (i.issue_id == id) = true
    · have hb2 : ((g i).issue_id == id) = true := by rw [hg]; exact hb
      simp [hb, hb2]
    · have hb' : (i.issue_id == id) = false := by
        simpa using hb
      have hb2 : ((g i).issue_id == id) = false := by rw [hg]; exact hb'
      simp [hb', hb2, ih]

/-- Helper: a successful `getIssueById` comes from a found row joined
with the users table. -/
theorem getIssueById_some (db : DB) (id : Nat) (e : IssueModel.JoinedIssue)
    (h : IssueModel.getIssueById db id = some e) :
    ∃ e0, db.issues.find? (fun i => i.issue_id == id) = some e0
      ∧ IssueModel.joinRow db e0 = e := by
  simp only [IssueModel.getIssueById, Option.map_eq_some'] at h
  exact h

/-- C5: an absent id makes `getIssueById` return `null` (not an error),
and the update, status-update and delete controllers each answer 404
without touching the store; for an existing id the update and
status-update controllers answer with the re-fetched post-mutation
record. -/
theorem notFound_semantics (now : Nat) (db : DB) (id : Nat)
    (u : IssueModel.UpdateFields) (st : String) :
    ((∀ i ∈ db.issues, i.issue_id ≠ id) →
        IssueModel.getIssueById db id = none)
    ∧ (IssueModel.getIssueById db id = none →
        IssueController.updateIssue now id u db
            = (.notFound "Issue not found", db)
        ∧ IssueController.updateStatus now id st db
            = (.notFound "Issue not found", db)
        ∧ IssueController.deleteIssue id db
            = (.notFound "Issue not found", db))
    ∧ (∀ e, IssueModel.getIssueById db id = some e →
        (∃ j db2, IssueController.updateIssue now id u db
            = (.success (some (IssueController.formatIssueResponse j))
                "Issue updated successfully", db2)
          ∧ IssueModel.getIssueById db2 id = some j)
        ∧ (∃ j db2, IssueController.updateStatus now id st db
            = (.success (some (IssueController.formatIssueResponse j))
                ("Issue status updated to \"" ++ st ++ "\""), db2)
          ∧ IssueModel.getIssueById db2 id = some j)) := by
  refine ⟨?_, ?_, ?_⟩
  · intro h
    simp only [IssueModel.getIssueById, Option.map_eq_none']
    rw [List.find?_eq_none]
    intro i hi
    simp [h i hi]
  · intro hnone
    exact ⟨by simp [IssueController.updateIssue, hnone],
           by simp [IssueController.updateStatus, hnone],
           by simp [IssueController.deleteIssue, hnone]⟩
  · intro e hsome
    obtain ⟨e0, hfind, hjoin⟩ := getIssueById_some db id e hsome
    have hbe := List.find?_some hfind
    constructor
    · by_cases hnf : IssueModel.noFields u = true
      · have hdb2 : IssueModel.updateIssue now db id u
            = ({ affectedRows := 0 }, db) := by
          simp [IssueModel.updateIssue, hnf]
        refine ⟨e, db, ?_, hsome⟩
        simp [IssueController.updateIssue, hsome, hdb2]
      · have hgid : ∀ i, ((fun i => if i.issue_id == id
              then IssueModel.applyUpdate now u i else i) i).issue_id
            = i.issue_id := by
          intro i
          by_cases hb : (i.issue_id == id) = true <;>
            simp [hb, (applyUpdate_fields now u i).1]
        have hiss : (IssueModel.updateIssue now db id u).2.issues
            = db.issues.map (fun i => if i.issue_id == id
                then IssueModel.applyUpdate now u i else i) := by
          simp [IssueModel.updateIssue, hnf]
        have hbe2 : e0.issue_id = id := by simpa using hbe
        have hfind2 : (IssueModel.updateIssue now db id u).2.issues.find?
              (fun i => i.issue_id == id)
            = some (IssueModel.applyUpdate now u e0) := by
          rw [hiss, find?_map_preserve _ _ _ hgid, hfind]
          simp [hbe2]
        have hget2 : IssueModel.getIssueById
              (IssueModel.updateIssue now db id u).2 id
            = some (IssueModel.joinRow (IssueModel.updateIssue now db id u).2
                (IssueModel.applyUpdate now u e0)) := by
          simp [IssueModel.getIssueById, hfind2]
        refine ⟨_, (IssueModel.updateIssue now db id u).2, ?_, hget2⟩
        simp [IssueController.updateIssue, hsome, hget2]
    · have hbe2 : e0.issue_id = id := by simpa using hbe
      have hgid : ∀ (i : Issue), ((fun (j : Issue) => if j.issue_id == id
            then (if st == "Resolved" || st == "Closed"
              then { j with status := st, resolved_at := some now,
                            updated_at := now }
              else { j with status := st, resolved_at := none,
                            updated_at := now })
            else j) i).issue_id = i.issue_id := by
        intro i
        by_cases hb : (i.issue_id == id) = true <;>
          by_cases hrc : (st == "Resolved" || st == "Closed") = true <;>
          simp [hb, hrc]
      have hfind2 : (IssueModel.updateStatus now db id st).2.issues.find?
            (fun i => i.issue_id == id)
          = some (if st == "Resolved" || st == "Closed"
              then { e0 with status := st, resolved_at := some now,
                             updated_at := now }
              else { e0 with status := st, resolved_at := none,
                             updated_at := now }) := by
        rw [show (IssueModel.updateStatus now db id st).2.issues
            = db.issues.map (fun (j : Issue) => if j.issue_id == id
                then (if st == "Resolved" || st == "Closed"
                  then { j with status := st, resolved_at := some now,
                                updated_at := now }
                  else { j with status := st, resolved_at := none,
                                updated_at := now })
                else j) from rfl,
          find?_map_preserve _ _ _ hgid, hfind]
        by_cases hrc : (st == "Resolved" || st == "Closed") = true <;>
          simp [hbe2, hrc]
      have hget2 : IssueModel.getIssueById
            (IssueModel.updateStatus now db id st).2 id
          = some (IssueModel.joinRow (IssueModel.updateStatus now db id st).2
              (if st == "Resolved" || st == "Closed"
                then { e0 with status := st, resolved_at := some now,
                               updated_at := now }
                else { e0 with status := st, resolved_at := none,
                               updated_at := now })) := by
        simp [IssueModel.getIssueById, hfind2]
      refine ⟨_, (IssueModel.updateStatus now db id st).2, ?_, hget2⟩
      simp [IssueController.updateStatus, hsome, hget2]

/-- C5 witness: on a concrete store, id 99 is absent — `getIssueById`
returns `null` and all three controllers answer 404 leaving the store
unchanged — while for the existing id 1 the status-update controller
returns the re-fetched, committed record. -/
theorem notFound_semantics_witness :
    IssueModel.getIssueById dbC1 99 = none
    ∧ IssueController.updateIssue 10 99 { title := some "X" } dbC1
        = (.notFound "Issue not found", dbC1)
    ∧ IssueController.updateStatus 10 99 "Open" dbC1
        = (.notFound "Issue not found", dbC1)
    ∧ IssueController.deleteIssue 99 dbC1 = (.notFound "Issue not found", dbC1)
    ∧ (∃ j db2, IssueController.updateStatus 10 1 "Closed" dbC1
        = (.success (some (IssueController.formatIssueResponse j))
            ("Issue status updated to \"" ++ "Closed" ++ "\""), db2)
        ∧ IssueModel.getIssueById db2 1 = some j) := by
  have h99 := notFound_semantics 10 dbC1 99 { title := some "X" } "Open"
  have hn : IssueModel.getIssueById dbC1 99 = none := h99.1 (by decide)
  have h2 := h99.2.1 hn
  have h1 := notFound_semantics 10 dbC1 1 { title := some "X" } "Closed"
  have hs : IssueModel.getIssueById dbC1 1
      = some (IssueModel.joinRow dbC1 (dbC1.issues.headD defaultIssue)) := by
    decide
  exact ⟨hn, h2.1, h2.2.1, h2.2.2, (h1.2.2 _ hs).2⟩

end IssueTracker
